import Mathlib

/-!
Verification development for the ffmpeg_streamer decode-orchestration core
(src/ffmpeg_core.c, src/ffmpeg_core.h).

The C code is shallowly embedded: the demuxing/decoding backend is modelled
as a list of `Packet`s (each packet carries the stream index it belongs to,
whether `avcodec_send_packet` accepts it, and the sequence of decode events
`avcodec_receive_frame` produces for it); machine `int64_t` arithmetic is
modelled with `Int`, C integer division (truncation toward zero) with
`Int.tdiv`; the C `double` expressions involving `av_q2d` of exact rationals
are modelled by the corresponding exact rational computation.  Heap
allocation of result copies is modelled as always succeeding.
-/

namespace FFStreamer

/-- One event produced by draining `avcodec_receive_frame` for a packet:
either a decoded frame (with its native `pts` and, for audio, `nb_samples`)
or a hard decode error (`ret < 0`, not EAGAIN/EOF). -/
inductive DecodeEvent
  | frame (pts : Int) (nbSamples : Int)
  | error
deriving DecidableEq, Repr

/-- One compressed packet returned by `av_read_frame`: the stream it belongs
to, whether `avcodec_send_packet` accepts it, and the decode events drained
from the decoder for it. -/
structure Packet where
  streamIndex : Int
  sendOk : Bool
  events : List DecodeEvent
deriving DecidableEq, Repr

/-- Per-stream constants read from `fmt_ctx->streams[idx]`: the time base
and the average frame rate, both exact rationals in the C structs. -/
structure StreamInfo where
  tbNum : Int
  tbDen : Int
  fpsNum : Int
  fpsDen : Int
deriving DecidableEq, Repr

/-- `pts * 1000 * time_base.num / time_base.den` with C `int64_t` division
(truncation toward zero), as computed in `create_video_frame_copy`,
`create_audio_frame_copy` and both decode loops. -/
def frameTsMs (st : StreamInfo) (pts : Int) : Int :=
  Int.tdiv (pts * 1000 * st.tbNum) st.tbDen

/-- `frame_id = (int64_t)(frame_ts_ms * fps / 1000.0)` from
`create_video_frame_copy`: the C `double` cast truncates toward zero; with
`fps = avg_frame_rate.num / avg_frame_rate.den` exactly, the value is the
truncation of the rational `tsMs * fpsNum / (fpsDen * 1000)`.  `fps > 0`
holds exactly when the rate's numerator and denominator have the same
nonzero sign; otherwise `frame_id` stays `0`. -/
def frameId (st : StreamInfo) (tsMs : Int) : Int :=
  if 0 < st.fpsNum * st.fpsDen then Int.tdiv (tsMs * st.fpsNum) (st.fpsDen * 1000)
  else 0

/-- The caller-owned video frame copy built by `create_video_frame_copy`
(pixel payload itself abstracted away; its geometry and timing fields are
kept). -/
structure VideoFrame where
  width : Int
  height : Int
  linesize : Int
  ptsMs : Int
  frameId : Int
deriving DecidableEq, Repr

/-- The caller-owned audio frame copy built by `create_audio_frame_copy`
(the converted stereo float payload abstracted away). -/
structure AudioFrame where
  samplesCount : Int
  channels : Int
  sampleRate : Int
  ptsMs : Int
  frameId : Int
deriving DecidableEq, Repr

/-- `create_video_frame_copy` on the scratch frame holding a decoded frame
with native timestamp `pts`: converts to RGBA, heap-copies the pixels
(allocation modelled as succeeding), and fills the metadata fields. -/
def create_video_frame_copy (st : StreamInfo) (w h pts : Int) : VideoFrame :=
  { width := w
    height := h
    linesize := w * 4
    ptsMs := frameTsMs st pts
    frameId := frameId st (frameTsMs st pts) }

/-- `create_audio_frame_copy` on the scratch frame holding a decoded audio
frame: resamples to interleaved stereo float (so `channels = 2`), copies the
samples out, and sets `frame_id = 0` ("audio doesn't have a clear frame
ID" in the source). -/
def create_audio_frame_copy (st : StreamInfo) (sampleRate pts nb : Int) : AudioFrame :=
  { samplesCount := nb
    channels := 2
    sampleRate := sampleRate
    ptsMs := frameTsMs st pts
    frameId := 0 }

/-- Whether a packet is fed to the decoder of stream `idx`: the C loop body
runs only when `work_packet->stream_index` matches, and a failing
`avcodec_send_packet` makes it `continue` to the next packet. -/
def matchesStream (idx : Int) (p : Packet) : Bool :=
  p.streamIndex == idx && p.sendOk

/-- Outcome of draining one packet's decode events (the inner
`avcodec_receive_frame` loop): all frames drained and below the target
(EAGAIN, go read the next packet), a hard decode error (the function
returns -1), or the first frame at or after the target. -/
inductive DrainOut (α : Type)
  | pass
  | fail
  | got (a : α)
deriving DecidableEq, Repr

/-- The inner receive loop of `decode_video_until_ts` /
`decode_audio_until_ts`: frames whose converted time is below the target
are discarded; the first frame at or after the target is copied out via
`mk`. -/
def drain (mk : Int → Int → α) (st : StreamInfo) (target : Int) :
    List DecodeEvent → DrainOut α
  | [] => DrainOut.pass
  | DecodeEvent.error :: _ => DrainOut.fail
  | DecodeEvent.frame pts nb :: rest =>
      if target ≤ frameTsMs st pts then DrainOut.got (mk pts nb)
      else drain mk st target rest

/-- The outer `av_read_frame` loop shared by `decode_video_until_ts` and
`decode_audio_until_ts`: reads packets until the drain yields a result or
the container is exhausted.  Returns the result (none models the C -1) and
the packets left unread, i.e. the container position afterwards. -/
def decode_until_ts_core (mk : Int → Int → α) (st : StreamInfo) (idx target : Int) :
    List Packet → Option α × List Packet
  | [] => (none, [])
  | p :: rest =>
      if matchesStream idx p then
        match drain mk st target p.events with
        | DrainOut.pass => decode_until_ts_core mk st idx target rest
        | DrainOut.fail => (none, rest)
        | DrainOut.got a => (some a, rest)
      else decode_until_ts_core mk st idx target rest

/-- The media session fields the decode paths read: which streams are
open (`-1` = absent), whether the decode resources for each media type are
allocated (codec context, scratch frames, converter — created and torn
down as a unit by `ffmpeg_open_media`/`ffmpeg_stop`), the stream constants,
output geometry, and the backend seek behaviour: `seekOk` is the result of
`av_seek_frame` and `afterSeek t` the container contents (remaining
packets) after a successful backward seek to target time `t`. -/
structure Session where
  hasFmt : Bool
  videoStreamIdx : Int
  audioStreamIdx : Int
  hasVideoDecode : Bool
  hasAudioDecode : Bool
  vst : StreamInfo
  ast : StreamInfo
  width : Int
  height : Int
  sampleRate : Int
  frameSize : Int
  seekOk : Bool
  afterSeek : Int → List Packet

/-- The copy function `decode_video_until_ts` hands to the drain loop. -/
def mkVideo (sess : Session) : Int → Int → VideoFrame :=
  fun pts _ => create_video_frame_copy sess.vst sess.width sess.height pts

/-- The copy function `decode_audio_until_ts` hands to the drain loop. -/
def mkAudio (sess : Session) : Int → Int → AudioFrame :=
  fun pts nb => create_audio_frame_copy sess.ast sess.sampleRate pts nb

/-- `decode_video_until_ts`: guards on the video decode resources being
present (the C null checks), then runs the read/decode loop from the
current container position `pkts`. -/
def decode_video_until_ts (sess : Session) (target : Int) (pkts : List Packet) :
    Option VideoFrame × List Packet :=
  if sess.hasVideoDecode then
    decode_until_ts_core (mkVideo sess) sess.vst sess.videoStreamIdx target pkts
  else (none, pkts)

/-- `decode_audio_until_ts`: guards on the audio decode resources being
present, then runs the read/decode loop. -/
def decode_audio_until_ts (sess : Session) (target : Int) (pkts : List Packet) :
    Option AudioFrame × List Packet :=
  if sess.hasAudioDecode then
    decode_until_ts_core (mkAudio sess) sess.ast sess.audioStreamIdx target pkts
  else (none, pkts)

/-- Projection of a decode event to its frame data, if it is a frame. -/
def evFrame : DecodeEvent → Option (Int × Int)
  | DecodeEvent.frame pts nb => some (pts, nb)
  | DecodeEvent.error => none

/-- The sequence of frames the decoder of stream `idx` produces from the
container: events of the packets of that stream that the decoder accepts,
in order. -/
def decodedStream (idx : Int) (pkts : List Packet) : List (Int × Int) :=
  (pkts.filter (matchesStream idx)).flatMap (fun p => p.events.filterMap evFrame)

/-- A decoded frame qualifies when its presentation time in milliseconds is
at or after the target. -/
def qualifies (st : StreamInfo) (target : Int) (e : Int × Int) : Bool :=
  target ≤ frameTsMs st e.1

/-- No packet produces a hard decode error. -/
def cleanPackets (pkts : List Packet) : Prop :=
  ∀ p ∈ pkts, ∀ e ∈ p.events, e ≠ DecodeEvent.error

instance : DecidablePred cleanPackets := fun pkts => by
  unfold cleanPackets
  infer_instance

/-- `(int64_t)((frame_index / fps) * 1000.0)` with `fps =
avg_frame_rate.num / avg_frame_rate.den`: the exact value is the rational
`idx * fpsDen * 1000 / fpsNum`, truncated toward zero by the C cast. -/
def indexTargetTs (fpsNum fpsDen idx : Int) : Int :=
  Int.tdiv (idx * fpsDen * 1000) fpsNum

/-- Backend operations a request performs on the shared container: a
backward `av_seek_frame` to a target time, or one invocation of the
decode-until-target read loop for a target time. -/
inductive Op
  | seek (targetMs : Int)
  | decode (targetMs : Int)
deriving DecidableEq, Repr

/-- Whether an operation is a container seek. -/
def Op.isSeek : Op → Bool
  | Op.seek _ => true
  | Op.decode _ => false

/-- Result of a synchronous batch range call: the C return value, the
frames stored into the caller's batch arrays (in order), and the trace of
container operations performed. -/
structure RangeResult where
  ret : Int
  frames : List VideoFrame
  ops : List Op
deriving Repr

/-- The `while (current_index <= end_index)` loop of
`ffmpeg_get_video_frames_range_by_index`, with the remaining iteration
count `endIndex + 1 - currentIndex` as fuel: one decode-until-target per
successive index, each continuing from the container position the previous
one left, breaking at the first failed decode. -/
def rangeLoopIdx (sess : Session) : Nat → Int → List Packet → List VideoFrame × List Op
  | 0, _, _ => ([], [])
  | fuel + 1, cur, pkts =>
      let t := indexTargetTs sess.vst.fpsNum sess.vst.fpsDen cur
      match decode_video_until_ts sess t pkts with
      | (some vf, rest) =>
          let r := rangeLoopIdx sess fuel (cur + 1) rest
          (vf :: r.1, Op.decode t :: r.2)
      | (none, _) => ([], [Op.decode t])

/-- `ffmpeg_get_video_frames_range_by_index`: validity and fps guards, one
seek to the start index's time, then the sequential decode loop; the
return value is the number of frames stored (`count`), or -1 on a guard or
seek failure. -/
def ffmpeg_get_video_frames_range_by_index (sess : Session) (startIndex endIndex : Int) :
    RangeResult :=
  if sess.hasFmt = true ∧ 0 ≤ sess.videoStreamIdx then
    if 0 < sess.vst.fpsNum * sess.vst.fpsDen then
      let t0 := indexTargetTs sess.vst.fpsNum sess.vst.fpsDen startIndex
      if sess.seekOk then
        let r := rangeLoopIdx sess (endIndex + 1 - startIndex).toNat startIndex
          (sess.afterSeek t0)
        ⟨(r.1.length : Int), r.1, Op.seek t0 :: r.2⟩
      else ⟨-1, [], [Op.seek t0]⟩
    else ⟨-1, [], []⟩
  else ⟨-1, [], []⟩

/-- The `while (current_ts <= end_ms)` loop of
`ffmpeg_get_video_frames_range_by_timestamp`.  Each iteration that
continues consumes at least one packet, so `pkts.length + 1` fuel is never
exhausted before the loop exits by itself. -/
def rangeLoopTs (sess : Session) (endMs stepMs : Int) :
    Nat → Int → List Packet → List VideoFrame × List Op
  | 0, _, _ => ([], [])
  | fuel + 1, cur, pkts =>
      if cur ≤ endMs then
        match decode_video_until_ts sess cur pkts with
        | (some vf, rest) =>
            let r := rangeLoopTs sess endMs stepMs fuel (cur + stepMs) rest
            (vf :: r.1, Op.decode cur :: r.2)
        | (none, _) => ([], [Op.decode cur])
      else ([], [])

/-- `ffmpeg_get_video_frames_range_by_timestamp`: validity guard, one seek
to `start_ms`, then the sequential decode loop stepping the target by
`step_ms`. -/
def ffmpeg_get_video_frames_range_by_timestamp (sess : Session) (startMs endMs stepMs : Int) :
    RangeResult :=
  if sess.hasFmt = true ∧ 0 ≤ sess.videoStreamIdx then
    if sess.seekOk then
      let pkts := sess.afterSeek startMs
      let r := rangeLoopTs sess endMs stepMs (pkts.length + 1) startMs pkts
      ⟨(r.1.length : Int), r.1, Op.seek startMs :: r.2⟩
    else ⟨-1, [], [Op.seek startMs]⟩
  else ⟨-1, [], []⟩

/-- Externally observable events of an async task execution: container
seeks, entering the packet read loop, caller callbacks (with whether a
frame is delivered and the status code), progress callbacks, and frame
releases done instead of delivery. -/
inductive Ev
  | seekContainer (targetMs : Int)
  | readPackets
  | videoCallback (gotFrame : Bool) (code : Int)
  | audioCallback (gotFrame : Bool) (code : Int)
  | progress (current total : Int)
  | freeVideoFrame
  | freeAudioFrame
deriving DecidableEq, Repr

/-- `seek_to_frame_before_ts`: without an open container it fails at once
without touching the backend; otherwise it performs the backward
`av_seek_frame` (flushing the decoders), whose outcome is `sess.seekOk`. -/
def seek_step (sess : Session) (t : Int) : Bool × List Ev :=
  if sess.hasFmt then (sess.seekOk, [Ev.seekContainer t]) else (false, [])

/-- One `decode_video_until_ts` call from a task: enters the container
read loop only when the video decode resources exist. -/
def decode_video_step (sess : Session) (target : Int) (pkts : List Packet) :
    Option VideoFrame × List Ev :=
  ((decode_video_until_ts sess target pkts).1,
    if sess.hasVideoDecode then [Ev.readPackets] else [])

/-- One `decode_audio_until_ts` call from a task. -/
def decode_audio_step (sess : Session) (target : Int) (pkts : List Packet) :
    Option AudioFrame × List Ev :=
  ((decode_audio_until_ts sess target pkts).1,
    if sess.hasAudioDecode then [Ev.readPackets] else [])

/-- The five async task kinds of the C `TaskType` enum. -/
inductive TaskType
  | videoAtTimestamp
  | videoAtIndex
  | audioAtTimestamp
  | audioAtIndex
  | videoRange
deriving DecidableEq, Repr

/-- An `AsyncTask`: identifier, kind, flattened parameter union, which
callbacks are non-null, and the cancellation flag.  The flag is set only
by `ffmpeg_cancel_request` while the task sits in the queue, so it is
fixed by the time the worker processes the task. -/
structure PTask where
  id : Int
  ttype : TaskType
  timestampMs : Int
  frameIndex : Int
  startIndex : Int
  endIndex : Int
  hasVideoCallback : Bool
  hasAudioCallback : Bool
  hasProgressCallback : Bool
  cancelled : Bool
deriving DecidableEq, Repr

/-- `process_video_task`: skip outright if the task was cancelled before
being popped; otherwise seek and decode according to the task kind, then
either invoke the callback (frame pointer and status code) or release a
produced frame that cannot be delivered. -/
def process_video_task (sess : Session) (task : PTask) : List Ev :=
  if task.cancelled then [] else
  let fr : Option VideoFrame × List Ev :=
    match task.ttype with
    | TaskType.videoAtTimestamp =>
        let t := task.timestampMs
        let s := seek_step sess t
        if s.1 then
          let d := decode_video_step sess t (sess.afterSeek t)
          (d.1, s.2 ++ d.2)
        else (none, s.2)
    | TaskType.videoAtIndex =>
        if 0 ≤ sess.videoStreamIdx ∧ 0 < sess.vst.fpsNum * sess.vst.fpsDen then
          let t := indexTargetTs sess.vst.fpsNum sess.vst.fpsDen task.frameIndex
          let s := seek_step sess t
          if s.1 then
            let d := decode_video_step sess t (sess.afterSeek t)
            (d.1, s.2 ++ d.2)
          else (none, s.2)
        else (none, [])
    | _ => (none, [])
  let code : Int := if fr.1.isSome then 0 else -1
  if task.hasVideoCallback && !task.cancelled then
    fr.2 ++ [Ev.videoCallback fr.1.isSome code]
  else if fr.1.isSome then fr.2 ++ [Ev.freeVideoFrame]
  else fr.2

/-- `process_audio_task`: the audio mirror of `process_video_task`; the
index variant derives the target time from the codec's reported frame size
(fallback 1024 samples) and the sample rate, with C integer division. -/
def process_audio_task (sess : Session) (task : PTask) : List Ev :=
  if task.cancelled then [] else
  let fr : Option AudioFrame × List Ev :=
    match task.ttype with
    | TaskType.audioAtTimestamp =>
        let t := task.timestampMs
        let s := seek_step sess t
        if s.1 then
          let d := decode_audio_step sess t (sess.afterSeek t)
          (d.1, s.2 ++ d.2)
        else (none, s.2)
    | TaskType.audioAtIndex =>
        if sess.hasAudioDecode then
          let spf := if sess.frameSize ≤ 0 then 1024 else sess.frameSize
          let dur := Int.tdiv (spf * 1000) sess.sampleRate
          let t := task.frameIndex * dur
          let s := seek_step sess t
          if s.1 then
            let d := decode_audio_step sess t (sess.afterSeek t)
            (d.1, s.2 ++ d.2)
          else (none, s.2)
        else (none, [])
    | _ => (none, [])
  let code : Int := if fr.1.isSome then 0 else -1
  if task.hasAudioCallback && !task.cancelled then
    fr.2 ++ [Ev.audioCallback fr.1.isSome code]
  else if fr.1.isSome then fr.2 ++ [Ev.freeAudioFrame]
  else fr.2

/-- The `while (current_index <= end_index && !task->cancelled)` loop of
`process_video_range_task` (fuel = remaining indices): decode the next
target from the current container position; on success deliver the frame
callback and then the progress callback and continue; otherwise release
any produced frame and stop. -/
def range_task_loop (sess : Session) (task : PTask) (total : Int) :
    Nat → Int → List Packet → Int → List Ev
  | 0, _, _, _ => []
  | fuel + 1, cur, pkts, processed =>
      if task.cancelled then [] else
      let t := indexTargetTs sess.vst.fpsNum sess.vst.fpsDen cur
      match decode_video_until_ts sess t pkts with
      | (some _, rest) =>
          if task.hasVideoCallback && !task.cancelled then
            Ev.videoCallback true 0 ::
              ((if task.hasProgressCallback && !task.cancelled then
                  [Ev.progress (processed + 1) total]
                else []) ++
                range_task_loop sess task total fuel (cur + 1) rest (processed + 1))
          else [Ev.freeVideoFrame]
      | (none, _) => []

/-- `process_video_range_task`: skip if cancelled before pop; require a
video stream with known positive fps; seek once to the range start, then
run the sequential per-index loop. -/
def process_video_range_task (sess : Session) (task : PTask) : List Ev :=
  if task.cancelled then [] else
  if 0 ≤ sess.videoStreamIdx ∧ 0 < sess.vst.fpsNum * sess.vst.fpsDen then
    let startTs := indexTargetTs sess.vst.fpsNum sess.vst.fpsDen task.startIndex
    let s := seek_step sess startTs
    if s.1 then
      s.2 ++ range_task_loop sess task (task.endIndex - task.startIndex + 1)
        (task.endIndex + 1 - task.startIndex).toNat task.startIndex
        (sess.afterSeek startTs) 0
    else s.2
  else []

/-- The worker's dispatch on the popped task's kind
(`worker_thread_func`). -/
def process_task (sess : Session) (task : PTask) : List Ev :=
  match task.ttype with
  | TaskType.videoAtTimestamp => process_video_task sess task
  | TaskType.videoAtIndex => process_video_task sess task
  | TaskType.audioAtTimestamp => process_audio_task sess task
  | TaskType.audioAtIndex => process_audio_task sess task
  | TaskType.videoRange => process_video_range_task sess task

/-- The async `TaskQueue`: pending tasks in FIFO order, the shutdown flag,
and the identifier counter. -/
structure TaskQueueState where
  tasks : List PTask
  shouldExit : Bool
  nextRequestId : Int
deriving Repr

/-- `task_queue_init`: empty queue, counter starts at 1. -/
def task_queue_init : TaskQueueState :=
  ⟨[], false, 1⟩

/-- `task_queue_add`: assign `next_request_id++` to the task, clear its
cancellation flag, append it at the tail, and return the identifier to the
caller at once (the enqueueing thread does not wait for execution). -/
def task_queue_add (q : TaskQueueState) (t : PTask) : Int × TaskQueueState :=
  (q.nextRequestId,
    ⟨q.tasks ++ [{ t with id := q.nextRequestId, cancelled := false }],
      q.shouldExit, q.nextRequestId + 1⟩)

/-- `task_queue_pop`: on shutdown, no task; otherwise remove and return
the head (blocking on an empty queue is not modelled — pop is applied to
nonempty queues). -/
def task_queue_pop (q : TaskQueueState) : Option PTask × TaskQueueState :=
  if q.shouldExit then (none, q)
  else
    match q.tasks with
    | [] => (none, q)
    | t :: rest => (some t, ⟨rest, q.shouldExit, q.nextRequestId⟩)

/-- The list walk of `ffmpeg_cancel_request`: set the cancellation flag of
the first task with the requested identifier, leaving it in place. -/
def cancel_in_list (rid : Int) : List PTask → List PTask
  | [] => []
  | t :: rest =>
      if t.id = rid then { t with cancelled := true } :: rest
      else t :: cancel_in_list rid rest

/-- `ffmpeg_cancel_request`: best-effort flagging of a queued task. -/
def ffmpeg_cancel_request (q : TaskQueueState) (rid : Int) : TaskQueueState :=
  ⟨cancel_in_list rid q.tasks, q.shouldExit, q.nextRequestId⟩

/-- Sequence of `task_queue_add` calls, collecting the returned request
identifiers in order. -/
def enqueue_all (q : TaskQueueState) : List PTask → List Int × TaskQueueState
  | [] => ([], q)
  | t :: ts =>
      let r := task_queue_add q t
      let rs := enqueue_all r.2 ts
      (r.1 :: rs.1, rs.2)

/-- Codec type of a container stream (`codecpar->codec_type`). -/
inductive MediaType
  | video
  | audio
  | other
deriving DecidableEq, Repr

/-- One stream found by probing, together with the outcome of every
fallible backend step `ffmpeg_open_media` may run for it: decoder lookup,
codec-context allocation, parameter copy, codec open, scratch-frame
allocation, output-buffer sizing and allocation, converter/resampler
construction and (audio) initialisation. -/
structure StreamDesc where
  mtype : MediaType
  codecFound : Bool
  ctxAllocOk : Bool
  paramsOk : Bool
  codecOpenOk : Bool
  framesAllocOk : Bool
  bufSizeOk : Bool
  bufAllocOk : Bool
  convAllocOk : Bool
  convInitOk : Bool
deriving DecidableEq, Repr

/-- The backend outcomes one `ffmpeg_open_media` call can encounter: the
path argument, `avformat_open_input`, `avformat_find_stream_info`, the
probed streams, and the final `av_packet_alloc`. -/
structure OpenScenario where
  pathValid : Bool
  openOk : Bool
  probeOk : Bool
  streams : List StreamDesc
  workPacketOk : Bool
deriving DecidableEq, Repr

/-- The session resources `ffmpeg_open_media` establishes: container
handle, chosen stream indices (-1 = absent), codec contexts, converters,
and the work packet. -/
structure OpenState where
  fmtOpen : Bool
  videoStreamIdx : Int
  audioStreamIdx : Int
  videoCtx : Bool
  sws : Bool
  audioCtx : Bool
  swr : Bool
  workPacket : Bool
deriving DecidableEq, Repr

/-- The fully torn-down session (fresh state, and the state `ffmpeg_stop`
leaves behind). -/
def closedState : OpenState :=
  ⟨false, -1, -1, false, false, false, false, false⟩

/-- One iteration of the stream loop in `ffmpeg_open_media` for stream `i`.
`Except.error` is the abort path: a failing `avcodec_alloc_context3`
closes the container and makes the whole open return -3.  All later
per-stream failures free exactly the resources allocated for this stream,
reset its index to -1, and `continue`. -/
def process_stream (st : OpenState) (i : Nat) (s : StreamDesc) :
    Except (Int × OpenState) OpenState :=
  if ¬ s.codecFound then Except.ok st
  else
    match s.mtype with
    | MediaType.video =>
        if st.videoStreamIdx = -1 then
          if ¬ s.ctxAllocOk then
            Except.error (-3, { st with videoStreamIdx := (i : Int), fmtOpen := false })
          else if ¬ s.paramsOk then Except.ok { st with videoStreamIdx := -1 }
          else if ¬ s.codecOpenOk then Except.ok { st with videoStreamIdx := -1 }
          else if ¬ s.framesAllocOk then Except.ok { st with videoStreamIdx := -1 }
          else if ¬ s.bufSizeOk then Except.ok { st with videoStreamIdx := -1 }
          else if ¬ s.bufAllocOk then Except.ok { st with videoStreamIdx := -1 }
          else if ¬ s.convAllocOk then Except.ok { st with videoStreamIdx := -1 }
          else Except.ok { st with videoStreamIdx := (i : Int), videoCtx := true, sws := true }
        else Except.ok st
    | MediaType.audio =>
        if st.audioStreamIdx = -1 then
          if ¬ s.ctxAllocOk then
            Except.error (-3, { st with audioStreamIdx := (i : Int), fmtOpen := false })
          else if ¬ s.paramsOk then Except.ok { st with audioStreamIdx := -1 }
          else if ¬ s.codecOpenOk then Except.ok { st with audioStreamIdx := -1 }
          else if ¬ s.framesAllocOk then Except.ok { st with audioStreamIdx := -1 }
          else if ¬ s.bufAllocOk then Except.ok { st with audioStreamIdx := -1 }
          else if ¬ s.convAllocOk then Except.ok { st with audioStreamIdx := -1 }
          else if ¬ s.convInitOk then Except.ok { st with audioStreamIdx := -1 }
          else Except.ok { st with audioStreamIdx := (i : Int), audioCtx := true, swr := true }
        else Except.ok st
    | MediaType.other => Except.ok st

/-- The stream loop of `ffmpeg_open_media` over all probed streams. -/
def open_streams_loop (st : OpenState) (i : Nat) :
    List StreamDesc → Except (Int × OpenState) OpenState
  | [] => Except.ok st
  | s :: rest =>
      match process_stream st i s with
      | Except.error e => Except.error e
      | Except.ok st2 => open_streams_loop st2 (i + 1) rest

/-- `ffmpeg_open_media`: null path → -1; `avformat_open_input` failure →
-2; `avformat_find_stream_info` failure → -2 (container closed again);
then the stream loop; finally `av_packet_alloc` failure → `ffmpeg_stop`
and -3.  Success returns 0. -/
def ffmpeg_open_media (sc : OpenScenario) : Int × OpenState :=
  if ¬ sc.pathValid then (-1, closedState)
  else if ¬ sc.openOk then (-2, closedState)
  else if ¬ sc.probeOk then (-2, closedState)
  else
    match open_streams_loop { closedState with fmtOpen := true } 0 sc.streams with
    | Except.error e => e
    | Except.ok st =>
        if ¬ sc.workPacketOk then (-3, closedState)
        else (0, { st with workPacket := true })

/-- Follows the spec's words, for comparison with `frameId`: the frame
index as the nearest integer to `pts_ms * fps / 1000`, absent when fps is
unknown. -/
def specNearestFrameId (st : StreamInfo) (tsMs : Int) : Option Int :=
  if 0 < st.fpsNum * st.fpsDen then
    some (round (((tsMs * st.fpsNum : Int) : ℚ) / ((st.fpsDen * 1000 : Int) : ℚ)))
  else none

/-- A `FrameRangeBatch`: the two caller-allocated pointer arrays (possibly
null, modelled as index functions returning the stored frame pointers) and
the filled count. -/
structure FrameRangeBatch where
  videoFrames : Option (Nat → Option Nat)
  audioFrames : Option (Nat → Option Nat)
  count : Nat

/-- Heap releases `ffmpeg_free_frame_range_batch` can perform: one stored
video or audio frame (by slot), or a pointer array itself. -/
inductive BatchFreeAct
  | videoFrame (i : Nat)
  | audioFrame (i : Nat)
  | array
deriving DecidableEq, Repr

/-- `ffmpeg_free_frame_range_batch`: null batch is a no-op; otherwise walk
each non-null array over the first `count` slots and free every non-null
frame pointer found there. -/
def ffmpeg_free_frame_range_batch (b : Option FrameRangeBatch) : List BatchFreeAct :=
  match b with
  | none => []
  | some b =>
      (match b.videoFrames with
        | none => []
        | some f => (List.range b.count).filterMap
            (fun i => if (f i).isSome then some (BatchFreeAct.videoFrame i) else none)) ++
      (match b.audioFrames with
        | none => []
        | some f => (List.range b.count).filterMap
            (fun i => if (f i).isSome then some (BatchFreeAct.audioFrame i) else none))

/-- A caller-held `VideoFrame*`: the struct holds a possibly-null `data`
buffer pointer. -/
structure VideoFrameMem where
  dataPtr : Option Nat
deriving DecidableEq, Repr

/-- A caller-held `AudioFrame*`. -/
structure AudioFrameMem where
  dataPtr : Option Nat
deriving DecidableEq, Repr

/-- Heap releases the two frame-free functions can perform. -/
inductive FreeEv
  | buffer
  | frameStruct
deriving DecidableEq, Repr

/-- `ffmpeg_free_video_frame`: null-check the frame, free its data buffer
only when non-null, then free the struct. -/
def ffmpeg_free_video_frame (fr : Option VideoFrameMem) : List FreeEv :=
  match fr with
  | none => []
  | some f => (if f.dataPtr.isSome then [FreeEv.buffer] else []) ++ [FreeEv.frameStruct]

/-- `ffmpeg_free_audio_frame`: same shape as the video variant. -/
def ffmpeg_free_audio_frame (fr : Option AudioFrameMem) : List FreeEv :=
  match fr with
  | none => []
  | some f => (if f.dataPtr.isSome then [FreeEv.buffer] else []) ++ [FreeEv.frameStruct]

/-- A 1/1000 time base (pts already in milliseconds) with 30 fps, used by
the concrete instantiations below. -/
def wSt : StreamInfo := ⟨1, 1000, 30, 1⟩

/-- A session with both streams open (video stream 0, audio stream 1), a
working backend seek, and an already-exhausted container. -/
def wSession : Session :=
  ⟨true, 0, 1, true, true, wSt, wSt, 2, 2, 44100, 1024, true, fun _ => []⟩

/-- A session opened on an audio-only container: no video stream, no video
decode resources, container and seek functional. -/
def sessAudioOnly : Session :=
  ⟨true, -1, 0, false, true, wSt, wSt, 0, 0, 44100, 1024, true, fun _ => []⟩

/-- A session with a video stream whose container yields no packets, so
any video request exhausts the stream and fails with the not-found -1. -/
def sessVideoEmpty : Session :=
  ⟨true, 0, -1, true, false, wSt, wSt, 2, 2, 0, 0, true, fun _ => []⟩

/-- A video-by-timestamp task for target 0 with a live callback. -/
def tsTask0 : PTask :=
  ⟨1, TaskType.videoAtTimestamp, 0, 0, 0, 0, true, false, false, false⟩

/-- A video-by-index task for index 0 with a live callback. -/
def idxTask0 : PTask :=
  ⟨2, TaskType.videoAtIndex, 0, 0, 0, 0, true, false, false, false⟩

/-- A concrete video container position: two video packets with frames at
5 ms and 20 ms. -/
def wVp : List Packet :=
  [⟨0, true, [DecodeEvent.frame 5 0, DecodeEvent.frame 20 0]⟩]

/-- A concrete audio container position: one packet with a 256-sample
frame at 20 ms. -/
def wAp : List Packet :=
  [⟨1, true, [DecodeEvent.frame 20 256]⟩]

/-- A session whose backend seek always lands on three video packets with
frames at 0, 33 and 66 ms. -/
def wRangeSession : Session :=
  { wSession with
    afterSeek := fun _ =>
      [⟨0, true, [DecodeEvent.frame 0 0]⟩, ⟨0, true, [DecodeEvent.frame 33 0]⟩,
        ⟨0, true, [DecodeEvent.frame 66 0]⟩] }

/-- A probed audio stream whose whole setup succeeds. -/
def audioGoodDesc : StreamDesc :=
  ⟨MediaType.audio, true, true, true, true, true, true, true, true, true⟩

/-- A probed video stream whose decoder-context allocation fails (all its
other steps would succeed). -/
def videoCtxFailDesc : StreamDesc :=
  ⟨MediaType.video, true, false, true, true, true, true, true, true, true⟩

/-- A batch of one stored video frame (pointer 7 in slot 0) and a null
audio array. -/
def wBatch : FrameRangeBatch :=
  ⟨some (fun i => if i = 0 then some 7 else none), none, 1⟩

/-- Mid-open state: container open, audio stream 0 fully set up, video not
yet chosen. -/
def stAudioDone : OpenState :=
  ⟨true, -1, 0, false, false, true, true, false⟩

/-- A probed video stream whose codec open fails (context allocation
succeeds). -/
def videoOpenFailDesc : StreamDesc :=
  ⟨MediaType.video, true, true, true, false, true, true, true, true, true⟩

theorem drain_eq_find (mk : Int → Int → α) (st : StreamInfo) (target : Int)
    (evs : List DecodeEvent) (h : ∀ e ∈ evs, e ≠ DecodeEvent.error) :
    drain mk st target evs =
      (match (evs.filterMap evFrame).find? (qualifies st target) with
        | some e => DrainOut.got (mk e.1 e.2)
        | none => DrainOut.pass) := by
  induction evs with
  | nil => simp [drain]
  | cons e rest ih =>
      match e with
      | DecodeEvent.error =>
          exact absurd rfl (h DecodeEvent.error (List.mem_cons_self _ _))
      | DecodeEvent.frame pts nb =>
          by_cases hq : target ≤ frameTsMs st pts
          · simp [drain, hq, evFrame, List.find?, qualifies, hq]
          · have hrest : ∀ e ∈ rest, e ≠ DecodeEvent.error := fun e he =>
              h e (List.mem_cons_of_mem _ he)
            simp [drain, hq, evFrame, List.find?, qualifies, ih hrest]

theorem core_fst_eq_find (mk : Int → Int → α) (st : StreamInfo) (idx target : Int)
    (pkts : List Packet) (h : cleanPackets pkts) :
    (decode_until_ts_core mk st idx target pkts).1 =
      ((decodedStream idx pkts).find? (qualifies st target)).map (fun e => mk e.1 e.2) := by
  induction pkts with
  | nil => simp [decode_until_ts_core, decodedStream]
  | cons p rest ih =>
      have hrest : cleanPackets rest := fun q hq => h q (List.mem_cons_of_mem _ hq)
      have hp : ∀ e ∈ p.events, e ≠ DecodeEvent.error := h p (List.mem_cons_self _ _)
      by_cases hm : matchesStream idx p
      · have hdrain := drain_eq_find mk st target p.events hp
        cases hfind : (p.events.filterMap evFrame).find? (qualifies st target) with
        | some e =>
            rw [hfind] at hdrain
            simp only [decode_until_ts_core, hm, if_true, hdrain]
            have : decodedStream idx (p :: rest) =
                p.events.filterMap evFrame ++ decodedStream idx rest := by
              simp [decodedStream, List.filter_cons, hm]
            rw [this, List.find?_append, hfind]
            simp
        | none =>
            rw [hfind] at hdrain
            simp only [decode_until_ts_core, hm, if_true, hdrain]
            have heq : decodedStream idx (p :: rest) =
                p.events.filterMap evFrame ++ decodedStream idx rest := by
              simp [decodedStream, List.filter_cons, hm]
            rw [heq, List.find?_append, hfind, ih hrest]
            simp
      · have heq : decodedStream idx (p :: rest) = decodedStream idx rest := by
          simp [decodedStream, List.filter_cons, hm]
        simp only [decode_until_ts_core, hm, Bool.false_eq_true, if_false, heq, ih hrest]

/-- C1: for every target time, `decode_video_until_ts` and
`decode_audio_until_ts` return the first cleanly decoded frame of their
stream whose presentation time in milliseconds (`pts * 1000 *
time_base.num / time_base.den`) is at or after the target, discarding every
earlier decoded frame; when the container is exhausted without producing a
qualifying frame the result is the failure value (the C -1, "not
found"). -/
theorem decode_until_ts_first_at_or_after (sess : Session) (target : Int)
    (vp ap : List Packet)
    (hvd : sess.hasVideoDecode = true) (had : sess.hasAudioDecode = true)
    (hv : cleanPackets vp) (ha : cleanPackets ap) :
    (decode_video_until_ts sess target vp).1 =
      ((decodedStream sess.videoStreamIdx vp).find? (qualifies sess.vst target)).map
        (fun e => create_video_frame_copy sess.vst sess.width sess.height e.1)
    ∧ (decode_audio_until_ts sess target ap).1 =
      ((decodedStream sess.audioStreamIdx ap).find? (qualifies sess.ast target)).map
        (fun e => create_audio_frame_copy sess.ast sess.sampleRate e.1 e.2) := by
  constructor
  · simp only [decode_video_until_ts, hvd, if_true]
    exact core_fst_eq_find _ _ _ _ _ hv
  · simp only [decode_audio_until_ts, had, if_true]
    exact core_fst_eq_find _ _ _ _ _ ha

/-- Witness for `decode_until_ts_first_at_or_after` at a concrete session
and container: for target 10 ms the decoded frame at 5 ms is discarded and
the frame at 20 ms is returned (as a fresh copy), for video and audio. -/
theorem decode_until_ts_first_at_or_after_witness :
    (wSession.hasVideoDecode = true ∧ wSession.hasAudioDecode = true ∧
      cleanPackets wVp ∧ cleanPackets wAp) ∧
    (decode_video_until_ts wSession 10 wVp).1 = some ⟨2, 2, 8, 20, 0⟩ ∧
    (decode_audio_until_ts wSession 10 wAp).1 = some ⟨256, 2, 44100, 20, 0⟩ := by
  have h := decode_until_ts_first_at_or_after wSession 10 wVp wAp rfl rfl
    (by decide) (by decide)
  exact ⟨⟨rfl, rfl, by decide, by decide⟩, h.1.trans (by decide), h.2.trans (by decide)⟩

theorem core_some_consumes (mk : Int → Int → α) (st : StreamInfo) (idx target : Int) :
    ∀ pkts : List Packet, ((decode_until_ts_core mk st idx target pkts).1).isSome = true →
      (decode_until_ts_core mk st idx target pkts).2.length < pkts.length := by
  intro pkts
  induction pkts with
  | nil => simp [decode_until_ts_core]
  | cons p rest ih =>
      by_cases hm : matchesStream idx p
      · simp only [decode_until_ts_core, hm, if_true]
        cases hd : drain mk st target p.events with
        | pass =>
            intro hs
            exact Nat.lt_succ_of_lt (ih hs)
        | fail => simp
        | got a => simp [Nat.lt_succ_self]
      · simp only [decode_until_ts_core, hm, Bool.false_eq_true, if_false]
        intro hs
        exact Nat.lt_succ_of_lt (ih hs)

theorem decode_some_consumes (sess : Session) (target : Int) (pkts : List Packet)
    (h : ((decode_video_until_ts sess target pkts).1).isSome = true) :
    (decode_video_until_ts sess target pkts).2.length < pkts.length := by
  by_cases hv : sess.hasVideoDecode
  · simp only [decode_video_until_ts, hv, if_true] at h ⊢
    exact core_some_consumes _ _ _ _ pkts h
  · simp [decode_video_until_ts, hv] at h

theorem rangeLoopIdx_spec (sess : Session) :
    ∀ (fuel : Nat) (cur : Int) (pkts : List Packet),
      ∃ d : Nat,
        (rangeLoopIdx sess fuel cur pkts).2 =
          (List.range d).map
            (fun i : Nat =>
              Op.decode (indexTargetTs sess.vst.fpsNum sess.vst.fpsDen (cur + (i : Int))))
        ∧ (d = (rangeLoopIdx sess fuel cur pkts).1.length + 1
            ∨ (d = (rangeLoopIdx sess fuel cur pkts).1.length
                ∧ (rangeLoopIdx sess fuel cur pkts).1.length = fuel)) := by
  intro fuel
  induction fuel with
  | zero =>
      intro cur pkts
      exact ⟨0, by simp [rangeLoopIdx], Or.inr ⟨by simp [rangeLoopIdx], by simp [rangeLoopIdx]⟩⟩
  | succ fuel ih =>
      intro cur pkts
      rcases hdec : decode_video_until_ts sess
          (indexTargetTs sess.vst.fpsNum sess.vst.fpsDen cur) pkts with ⟨f, rest⟩
      cases f with
      | some vf =>
          obtain ⟨d, hops, hd⟩ := ih (cur + 1) rest
          refine ⟨d + 1, ?_, ?_⟩
          · simp only [rangeLoopIdx, hdec]
            rw [hops, List.range_succ_eq_map, List.map_cons, List.map_map]
            congr 1
            · simp
            · apply List.map_congr_left
              intro i _
              simp only [Function.comp_apply]
              congr 2
              push_cast
              ring
          · simp only [rangeLoopIdx, hdec, List.length_cons]
            rcases hd with h | ⟨h1, h2⟩
            · exact Or.inl (by omega)
            · exact Or.inr ⟨by omega, by omega⟩
      | none =>
          refine ⟨1, ?_, ?_⟩
          · have h1 : List.range 1 = [0] := rfl
            simp [rangeLoopIdx, hdec, h1]
          · left
            simp [rangeLoopIdx, hdec]

theorem rangeLoopTs_spec (sess : Session) (endMs stepMs : Int) :
    ∀ (fuel : Nat) (cur : Int) (pkts : List Packet), pkts.length < fuel →
      ∃ d : Nat,
        (rangeLoopTs sess endMs stepMs fuel cur pkts).2 =
          (List.range d).map (fun i : Nat => Op.decode (cur + (i : Int) * stepMs))
        ∧ (d = (rangeLoopTs sess endMs stepMs fuel cur pkts).1.length + 1
            ∨ (d = (rangeLoopTs sess endMs stepMs fuel cur pkts).1.length
                ∧ ¬(cur + ((rangeLoopTs sess endMs stepMs fuel cur pkts).1.length : Int) * stepMs
                      ≤ endMs))) := by
  intro fuel
  induction fuel with
  | zero => intro cur pkts h; omega
  | succ fuel ih =>
      intro cur pkts hlen
      by_cases hcur : cur ≤ endMs
      · rcases hdec : decode_video_until_ts sess cur pkts with ⟨f, rest⟩
        cases f with
        | some vf =>
            have hcons : rest.length < fuel := by
              have hc := decode_some_consumes sess cur pkts (by rw [hdec]; rfl)
              rw [hdec] at hc
              simp only at hc
              omega
            obtain ⟨d, hops, hd⟩ := ih (cur + stepMs) rest hcons
            refine ⟨d + 1, ?_, ?_⟩
            · simp only [rangeLoopTs, hcur, if_true, hdec]
              rw [hops, List.range_succ_eq_map, List.map_cons, List.map_map]
              congr 1
              · simp
              · apply List.map_congr_left
                intro i _
                simp only [Function.comp_apply]
                congr 1
                push_cast
                ring
            · simp only [rangeLoopTs, hcur, if_true, hdec, List.length_cons]
              rcases hd with h | ⟨h1, h2⟩
              · exact Or.inl (by omega)
              · refine Or.inr ⟨by omega, ?_⟩
                intro hc
                apply h2
                push_cast at hc ⊢
                linarith
        | none =>
            refine ⟨1, ?_, ?_⟩
            · have h1 : List.range 1 = [0] := rfl
              simp [rangeLoopTs, hcur, hdec, h1]
            · left
              simp [rangeLoopTs, hcur, hdec]
      · refine ⟨0, ?_, ?_⟩
        · simp [rangeLoopTs, hcur]
        · right
          refine ⟨by simp [rangeLoopTs, hcur], ?_⟩
          simp only [rangeLoopTs, hcur, if_false, List.length_nil]
          push_cast
          simpa using hcur

theorem countP_isSeek_decodes (d : Nat) (f : Nat → Int) :
    ((List.range d).map (fun i => Op.decode (f i))).countP Op.isSeek = 0 := by
  rw [List.countP_eq_zero]
  intro o ho
  rcases List.mem_map.mp ho with ⟨i, _, rfl⟩
  simp [Op.isSeek]

/-- C2: both synchronous batch range retrievals perform exactly one
container seek — to the start target — and afterwards only
decode-until-target steps for the successive targets (successive indices'
times, resp. timestamps stepped by `step_ms`), with no further seek; they
stop at the first target not found (then `d`, the number of decode steps,
is `count + 1`) and return the count of frames produced up to that point,
the full range count only when the range was exhausted. -/
theorem range_retrieval_single_seek_partial_count
    (sess : Session) (startIndex endIndex startMs endMs stepMs : Int)
    (hfmt : sess.hasFmt = true) (hvs : 0 ≤ sess.videoStreamIdx)
    (hfps : 0 < sess.vst.fpsNum * sess.vst.fpsDen) (hseek : sess.seekOk = true) :
    (∃ d : Nat,
      (ffmpeg_get_video_frames_range_by_index sess startIndex endIndex).ops =
        Op.seek (indexTargetTs sess.vst.fpsNum sess.vst.fpsDen startIndex) ::
          (List.range d).map
            (fun i : Nat =>
              Op.decode (indexTargetTs sess.vst.fpsNum sess.vst.fpsDen (startIndex + (i : Int))))
      ∧ (ffmpeg_get_video_frames_range_by_index sess startIndex endIndex).ops.countP Op.isSeek = 1
      ∧ (ffmpeg_get_video_frames_range_by_index sess startIndex endIndex).ret =
          ((ffmpeg_get_video_frames_range_by_index sess startIndex endIndex).frames.length : Int)
      ∧ (d = (ffmpeg_get_video_frames_range_by_index sess startIndex endIndex).frames.length + 1
          ∨ (d = (ffmpeg_get_video_frames_range_by_index sess startIndex endIndex).frames.length
              ∧ (ffmpeg_get_video_frames_range_by_index sess startIndex endIndex).frames.length
                  = (endIndex + 1 - startIndex).toNat)))
    ∧ (∃ d : Nat,
      (ffmpeg_get_video_frames_range_by_timestamp sess startMs endMs stepMs).ops =
        Op.seek startMs ::
          (List.range d).map (fun i : Nat => Op.decode (startMs + (i : Int) * stepMs))
      ∧ (ffmpeg_get_video_frames_range_by_timestamp sess startMs endMs stepMs).ops.countP
          Op.isSeek = 1
      ∧ (ffmpeg_get_video_frames_range_by_timestamp sess startMs endMs stepMs).ret =
          ((ffmpeg_get_video_frames_range_by_timestamp sess startMs endMs stepMs).frames.length
            : Int)
      ∧ (d = (ffmpeg_get_video_frames_range_by_timestamp sess startMs endMs stepMs).frames.length
            + 1
          ∨ (d = (ffmpeg_get_video_frames_range_by_timestamp sess
                startMs endMs stepMs).frames.length
              ∧ ¬(startMs + ((ffmpeg_get_video_frames_range_by_timestamp sess
                    startMs endMs stepMs).frames.length : Int) * stepMs ≤ endMs)))) := by
  constructor
  · have hub : ffmpeg_get_video_frames_range_by_index sess startIndex endIndex =
        ⟨((rangeLoopIdx sess (endIndex + 1 - startIndex).toNat startIndex
            (sess.afterSeek (indexTargetTs sess.vst.fpsNum sess.vst.fpsDen
              startIndex))).1.length : Int),
          (rangeLoopIdx sess (endIndex + 1 - startIndex).toNat startIndex
            (sess.afterSeek (indexTargetTs sess.vst.fpsNum sess.vst.fpsDen startIndex))).1,
          Op.seek (indexTargetTs sess.vst.fpsNum sess.vst.fpsDen startIndex) ::
            (rangeLoopIdx sess (endIndex + 1 - startIndex).toNat startIndex
              (sess.afterSeek (indexTargetTs sess.vst.fpsNum sess.vst.fpsDen
                startIndex))).2⟩ := by
      simp [ffmpeg_get_video_frames_range_by_index, hfmt, hvs, hfps, hseek]
    obtain ⟨d, hops, hd⟩ := rangeLoopIdx_spec sess (endIndex + 1 - startIndex).toNat startIndex
      (sess.afterSeek (indexTargetTs sess.vst.fpsNum sess.vst.fpsDen startIndex))
    refine ⟨d, ?_, ?_, ?_, ?_⟩
    · rw [hub, hops]
    · rw [hub]
      simp only [List.countP_cons, hops, countP_isSeek_decodes]
      rfl
    · rw [hub]
    · rw [hub]
      exact hd
  · have hub : ffmpeg_get_video_frames_range_by_timestamp sess startMs endMs stepMs =
        ⟨((rangeLoopTs sess endMs stepMs ((sess.afterSeek startMs).length + 1) startMs
            (sess.afterSeek startMs)).1.length : Int),
          (rangeLoopTs sess endMs stepMs ((sess.afterSeek startMs).length + 1) startMs
            (sess.afterSeek startMs)).1,
          Op.seek startMs ::
            (rangeLoopTs sess endMs stepMs ((sess.afterSeek startMs).length + 1) startMs
              (sess.afterSeek startMs)).2⟩ := by
      simp [ffmpeg_get_video_frames_range_by_timestamp, hfmt, hvs, hseek]
    obtain ⟨d, hops, hd⟩ := rangeLoopTs_spec sess endMs stepMs
      ((sess.afterSeek startMs).length + 1) startMs (sess.afterSeek startMs)
      (Nat.lt_succ_self _)
    refine ⟨d, ?_, ?_, ?_, ?_⟩
    · rw [hub, hops]
    · rw [hub]
      simp only [List.countP_cons, hops, countP_isSeek_decodes]
      rfl
    · rw [hub]
    · rw [hub]
      exact hd

/-- Witness for `range_retrieval_single_seek_partial_count` on a concrete
session whose container yields three frames: both batch calls return count
3 after a single seek. -/
theorem range_retrieval_single_seek_partial_count_witness :
    (wRangeSession.hasFmt = true ∧ 0 ≤ wRangeSession.videoStreamIdx ∧
      0 < wRangeSession.vst.fpsNum * wRangeSession.vst.fpsDen ∧
      wRangeSession.seekOk = true) ∧
    (ffmpeg_get_video_frames_range_by_index wRangeSession 0 5).ret = 3 ∧
    (ffmpeg_get_video_frames_range_by_timestamp wRangeSession 0 100 33).ret = 3 ∧
    ((∃ d : Nat,
      (ffmpeg_get_video_frames_range_by_index wRangeSession 0 5).ops =
        Op.seek (indexTargetTs wRangeSession.vst.fpsNum wRangeSession.vst.fpsDen 0) ::
          (List.range d).map
            (fun i : Nat =>
              Op.decode (indexTargetTs wRangeSession.vst.fpsNum wRangeSession.vst.fpsDen
                (0 + (i : Int))))
      ∧ (ffmpeg_get_video_frames_range_by_index wRangeSession 0 5).ops.countP Op.isSeek = 1
      ∧ (ffmpeg_get_video_frames_range_by_index wRangeSession 0 5).ret =
          ((ffmpeg_get_video_frames_range_by_index wRangeSession 0 5).frames.length : Int)
      ∧ (d = (ffmpeg_get_video_frames_range_by_index wRangeSession 0 5).frames.length + 1
          ∨ (d = (ffmpeg_get_video_frames_range_by_index wRangeSession 0 5).frames.length
              ∧ (ffmpeg_get_video_frames_range_by_index wRangeSession 0 5).frames.length
                  = ((5 : Int) + 1 - 0).toNat)))
    ∧ (∃ d : Nat,
      (ffmpeg_get_video_frames_range_by_timestamp wRangeSession 0 100 33).ops =
        Op.seek 0 ::
          (List.range d).map (fun i : Nat => Op.decode (0 + (i : Int) * 33))
      ∧ (ffmpeg_get_video_frames_range_by_timestamp wRangeSession 0 100 33).ops.countP
          Op.isSeek = 1
      ∧ (ffmpeg_get_video_frames_range_by_timestamp wRangeSession 0 100 33).ret =
          ((ffmpeg_get_video_frames_range_by_timestamp wRangeSession 0 100 33).frames.length
            : Int)
      ∧ (d = (ffmpeg_get_video_frames_range_by_timestamp wRangeSession
            0 100 33).frames.length + 1
          ∨ (d = (ffmpeg_get_video_frames_range_by_timestamp wRangeSession
                0 100 33).frames.length
              ∧ ¬((0 : Int) + ((ffmpeg_get_video_frames_range_by_timestamp wRangeSession
                    0 100 33).frames.length : Int) * 33 ≤ 100))))) :=
  ⟨⟨rfl, by decide, by decide, rfl⟩, by decide, by decide,
    range_retrieval_single_seek_partial_count wRangeSession 0 5 0 100 33 rfl (by decide)
      (by decide) rfl⟩

/-- C3 counterexample: on a session opened on an audio-only container
(video stream index -1), a video-by-timestamp request still performs a
backward container seek before failing, and the failure it reports is the
same generic code -1 that a genuine not-found (container exhausted)
request reports — not a distinct NoStream condition. -/
theorem video_request_without_stream_still_seeks :
    process_video_task sessAudioOnly tsTask0 =
      [Ev.seekContainer 0, Ev.videoCallback false (-1)] ∧
    process_video_task sessVideoEmpty tsTask0 =
      [Ev.seekContainer 0, Ev.readPackets, Ev.videoCallback false (-1)] :=
  ⟨by decide, by decide⟩

/-- C3 (amended): a video frame request on a session with no video stream
fails with the same generic code -1 used for not-found: the by-index
variant fails fast without any container operation, while the by-timestamp
variant performs one backward container seek (but no packet read) before
failing. -/
theorem no_video_stream_failure_generic (sess : Session) (task : PTask)
    (hv : sess.videoStreamIdx < 0) (hd : sess.hasVideoDecode = false)
    (hcb : task.hasVideoCallback = true) (hcan : task.cancelled = false) :
    (task.ttype = TaskType.videoAtIndex →
      process_video_task sess task = [Ev.videoCallback false (-1)]) ∧
    (task.ttype = TaskType.videoAtTimestamp → sess.hasFmt = true →
      process_video_task sess task =
        [Ev.seekContainer task.timestampMs, Ev.videoCallback false (-1)]) := by
  have hnv : ¬ (0 ≤ sess.videoStreamIdx ∧ 0 < sess.vst.fpsNum * sess.vst.fpsDen) :=
    fun h => absurd h.1 (not_le.mpr hv)
  constructor
  · intro ht
    simp [process_video_task, ht, hcan, hcb, hnv]
  · intro ht hfmt
    by_cases hs : sess.seekOk
    · simp [process_video_task, ht, hcan, hcb, seek_step, hfmt, hs, decode_video_step,
        decode_video_until_ts, hd]
    · simp [process_video_task, ht, hcan, hcb, seek_step, hfmt, hs, decode_video_step,
        decode_video_until_ts, hd]

/-- Witness for `no_video_stream_failure_generic`: a concrete video-by-index
request on the audio-only session fails with only the -1 callback. -/
theorem no_video_stream_failure_generic_witness :
    (sessAudioOnly.videoStreamIdx < 0 ∧ sessAudioOnly.hasVideoDecode = false ∧
      idxTask0.hasVideoCallback = true ∧ idxTask0.cancelled = false ∧
      idxTask0.ttype = TaskType.videoAtIndex) ∧
    process_video_task sessAudioOnly idxTask0 = [Ev.videoCallback false (-1)] :=
  ⟨⟨by decide, rfl, rfl, rfl, rfl⟩,
    (no_video_stream_failure_generic sessAudioOnly idxTask0 (by decide) rfl rfl rfl).1 rfl⟩

/-- C4 counterexample: container-open failure and stream-probe failure
return the same code (-2), so the three fatal open outcomes do not carry
pairwise distinct codes. -/
theorem open_and_probe_failures_share_code :
    (ffmpeg_open_media ⟨true, false, true, [], true⟩).1 = -2 ∧
    (ffmpeg_open_media ⟨true, true, false, [], true⟩).1 = -2 ∧
    (ffmpeg_open_media ⟨true, false, true, [], true⟩).1 =
      (ffmpeg_open_media ⟨true, true, false, [], true⟩).1 :=
  ⟨by decide, by decide, by decide⟩

/-- C4 (amended): the open operation returns -2 both for container-open
failure and for stream-probe failure (one shared code for these two), and
the distinct code -3 for fatal allocation failure; codec-unsupported is
non-fatal: the open returns 0 with that stream simply absent. -/
theorem open_failure_code_assignment :
    (∀ sc : OpenScenario, sc.pathValid = true → sc.openOk = false →
      (ffmpeg_open_media sc).1 = -2) ∧
    (∀ sc : OpenScenario, sc.pathValid = true → sc.openOk = true → sc.probeOk = false →
      (ffmpeg_open_media sc).1 = -2) ∧
    (∀ (sc : OpenScenario) (s : StreamDesc) (rest : List StreamDesc),
      sc.pathValid = true → sc.openOk = true → sc.probeOk = true →
      sc.streams = s :: rest → s.codecFound = true → s.ctxAllocOk = false →
      (s.mtype = MediaType.video ∨ s.mtype = MediaType.audio) →
      (ffmpeg_open_media sc).1 = -3) ∧
    ((-2 : Int) ≠ -3) ∧
    (∀ (sc : OpenScenario) (s : StreamDesc),
      sc.pathValid = true → sc.openOk = true → sc.probeOk = true →
      sc.streams = [s] → s.codecFound = false → sc.workPacketOk = true →
      (ffmpeg_open_media sc).1 = 0 ∧
      (ffmpeg_open_media sc).2.videoStreamIdx = -1 ∧
      (ffmpeg_open_media sc).2.audioStreamIdx = -1) := by
  refine ⟨?_, ?_, ?_, by decide, ?_⟩
  · intro sc h1 h2
    simp [ffmpeg_open_media, h1, h2]
  · intro sc h1 h2 h3
    simp [ffmpeg_open_media, h1, h2, h3]
  · intro sc s rest h1 h2 h3 hstreams hcf hctx hmt
    rcases hmt with hmt | hmt <;>
      simp [ffmpeg_open_media, h1, h2, h3, hstreams, open_streams_loop, process_stream,
        hcf, hctx, hmt, closedState]
  · intro sc s h1 h2 h3 hstreams hcf hwp
    refine ⟨?_, ?_, ?_⟩ <;>
      simp [ffmpeg_open_media, h1, h2, h3, hstreams, hwp, open_streams_loop,
        process_stream, hcf, closedState]

/-- Witness for `open_failure_code_assignment`: the three failure shapes
and the non-fatal codec-unsupported shape at concrete scenarios. -/
theorem open_failure_code_assignment_witness :
    (ffmpeg_open_media ⟨true, false, true, [], true⟩).1 = -2 ∧
    (ffmpeg_open_media ⟨true, true, false, [], true⟩).1 = -2 ∧
    (ffmpeg_open_media ⟨true, true, true, [videoCtxFailDesc], true⟩).1 = -3 ∧
    (ffmpeg_open_media
      ⟨true, true, true,
        [⟨MediaType.video, false, true, true, true, true, true, true, true, true⟩],
        true⟩).1 = 0 :=
  ⟨open_failure_code_assignment.1 _ rfl rfl,
    open_failure_code_assignment.2.1 _ rfl rfl rfl,
    open_failure_code_assignment.2.2.1 _ videoCtxFailDesc [] rfl rfl rfl rfl rfl rfl
      (Or.inl rfl),
    (open_failure_code_assignment.2.2.2.2 _ _ rfl rfl rfl rfl rfl rfl).1⟩

/-- C5 counterexample: with time base 1/1000 and 30 fps, the decoded frame
at pts 999 (999 ms) gets derived index 29 — the truncation of 29.97 —
while the nearest integer to pts_ms * fps / 1000 claimed by the spec is
30. -/
theorem frame_id_truncates_not_rounds :
    (create_video_frame_copy wSt 2 2 999).frameId = 29 ∧
    specNearestFrameId wSt (create_video_frame_copy wSt 2 2 999).ptsMs = some 30 ∧
    (29 : Int) ≠ 30 := by
  refine ⟨by decide, ?_, by decide⟩
  have h1 : (create_video_frame_copy wSt 2 2 999).ptsMs = 999 := by decide
  rw [h1]
  have h2 : specNearestFrameId wSt 999 = some (round ((29970 : Rat) / 1000)) := by
    simp [specNearestFrameId, wSt]
  rw [h2]
  congr 1
  rw [round_eq, Int.floor_eq_iff]
  constructor
  · norm_num
  · norm_num

/-- C5 (amended): every video frame copy carries
`frame_id = trunc(pts_ms * fps / 1000)`, the truncation toward zero of the
exact rational (its floor, for the nonnegative presentation times below),
characterised by the integer bounds, whenever the stream's average frame
rate is known and positive; when fps is unknown or nonpositive the frame
id is 0. -/
theorem frame_id_truncated_product (st : StreamInfo) (w h pts : Int)
    (hn : 0 < st.fpsNum) (hd : 0 < st.fpsDen) (hts : 0 ≤ frameTsMs st pts) :
    ((create_video_frame_copy st w h pts).frameId * (st.fpsDen * 1000)
        ≤ frameTsMs st pts * st.fpsNum
      ∧ frameTsMs st pts * st.fpsNum
        < ((create_video_frame_copy st w h pts).frameId + 1) * (st.fpsDen * 1000))
    ∧ ∀ st2 : StreamInfo, st2.fpsNum * st2.fpsDen ≤ 0 →
        (create_video_frame_copy st2 w h pts).frameId = 0 := by
  constructor
  · have hb : (0 : Int) < st.fpsDen * 1000 := by positivity
    have ha : (0 : Int) ≤ frameTsMs st pts * st.fpsNum := mul_nonneg hts hn.le
    have hfid : (create_video_frame_copy st w h pts).frameId =
        (frameTsMs st pts * st.fpsNum).tdiv (st.fpsDen * 1000) := by
      simp [create_video_frame_copy, frameId, mul_pos hn hd]
    rw [hfid, Int.tdiv_eq_ediv ha hb.le]
    exact ⟨Int.ediv_mul_le _ (ne_of_gt hb), Int.lt_ediv_add_one_mul_self _ hb⟩
  · intro st2 h2
    simp [create_video_frame_copy, frameId, not_lt.mpr h2]

/-- Witness for `frame_id_truncated_product` at time base 1/1000, 30 fps,
pts 999. -/
theorem frame_id_truncated_product_witness :
    ((0 : Int) < wSt.fpsNum ∧ (0 : Int) < wSt.fpsDen ∧ 0 ≤ frameTsMs wSt 999) ∧
    ((create_video_frame_copy wSt 2 2 999).frameId * (wSt.fpsDen * 1000)
        ≤ frameTsMs wSt 999 * wSt.fpsNum
      ∧ frameTsMs wSt 999 * wSt.fpsNum
        < ((create_video_frame_copy wSt 2 2 999).frameId + 1) * (wSt.fpsDen * 1000))
    ∧ ∀ st2 : StreamInfo, st2.fpsNum * st2.fpsDen ≤ 0 →
        (create_video_frame_copy st2 2 2 999).frameId = 0 :=
  ⟨⟨by decide, by decide, by decide⟩,
    (frame_id_truncated_product wSt 2 2 999 (by decide) (by decide) (by decide)).1,
    (frame_id_truncated_product wSt 2 2 999 (by decide) (by decide) (by decide)).2⟩

/-- C6: a task whose cancellation flag is set while it still sits in the
queue is popped with the flag set, and the worker skips such a task
entirely: processing it produces no events at all — in particular its
caller callback is never invoked and no decode, hence no frame, happens
(so nothing needs releasing; a frame that does exist when delivery is
impossible is released by the final branch of each process function). -/
theorem cancelled_before_pop_never_calls_back
    (q : TaskQueueState) (t : PTask) (rest : List PTask)
    (hq : q.tasks = t :: rest) (hx : q.shouldExit = false) :
    (task_queue_pop (ffmpeg_cancel_request q t.id)).1 = some { t with cancelled := true } ∧
    ∀ (sess : Session) (t2 : PTask), t2.cancelled = true → process_task sess t2 = [] := by
  constructor
  · simp [ffmpeg_cancel_request, task_queue_pop, hq, hx, cancel_in_list]
  · intro sess t2 h2
    cases ht : t2.ttype <;>
      simp [process_task, ht, process_video_task, process_audio_task,
        process_video_range_task, h2]

/-- Witness for `cancelled_before_pop_never_calls_back` on a queue holding
one concrete task. -/
theorem cancelled_before_pop_never_calls_back_witness :
    (task_queue_pop (ffmpeg_cancel_request ⟨[tsTask0], false, 2⟩ tsTask0.id)).1 =
      some { tsTask0 with cancelled := true } ∧
    process_task wSession { tsTask0 with cancelled := true } = [] := by
  have h := cancelled_before_pop_never_calls_back ⟨[tsTask0], false, 2⟩ tsTask0 [] rfl rfl
  exact ⟨h.1, h.2 wSession _ rfl⟩

/-- C7 counterexample: with a fully working audio stream already set up,
a video stream whose codec-context allocation fails makes the whole open
abort with the allocation code -3 and the container closed — the open
does not continue with only that stream marked absent. -/
theorem video_ctx_alloc_failure_aborts_open :
    (ffmpeg_open_media ⟨true, true, true, [audioGoodDesc, videoCtxFailDesc], true⟩).1 = -3 ∧
    (ffmpeg_open_media ⟨true, true, true, [audioGoodDesc, videoCtxFailDesc], true⟩).2.fmtOpen
      = false :=
  ⟨by decide, by decide⟩

/-- C7 (amended): after a successful open and probe, a failure in any
per-stream setup step other than the codec-context allocation (parameter
copy, codec open, scratch-frame allocation, buffer sizing/allocation,
converter or resampler setup) discards only that stream's partial state,
marks the stream absent and continues the open with everything else —
including the other stream's state and the container — untouched; a
codec-context allocation failure instead aborts the whole open. -/
theorem stream_setup_failure_rolls_back_only_stream
    (st : OpenState) (i : Nat) (s : StreamDesc) :
    (s.mtype = MediaType.video → s.codecFound = true → s.ctxAllocOk = true →
      st.videoStreamIdx = -1 →
      (s.paramsOk = false ∨ s.codecOpenOk = false ∨ s.framesAllocOk = false ∨
        s.bufSizeOk = false ∨ s.bufAllocOk = false ∨ s.convAllocOk = false) →
      process_stream st i s = Except.ok st) ∧
    (s.mtype = MediaType.audio → s.codecFound = true → s.ctxAllocOk = true →
      st.audioStreamIdx = -1 →
      (s.paramsOk = false ∨ s.codecOpenOk = false ∨ s.framesAllocOk = false ∨
        s.bufAllocOk = false ∨ s.convAllocOk = false ∨ s.convInitOk = false) →
      process_stream st i s = Except.ok st) := by
  obtain ⟨mt, cf, ca, pa, co, fa, bs, ba, cv, ci⟩ := s
  constructor
  · intro hmt hcf hctx hidx hfail
    simp only at hmt hcf hctx
    subst hmt
    subst hcf
    subst hctx
    have hst : ({ st with videoStreamIdx := -1 } : OpenState) = st := by
      cases st
      simp only at hidx
      simp [hidx]
    cases pa <;> cases co <;> cases fa <;> cases bs <;> cases ba <;> cases cv <;>
      simp_all [process_stream, hidx]
  · intro hmt hcf hctx hidx hfail
    simp only at hmt hcf hctx
    subst hmt
    subst hcf
    subst hctx
    have hst : ({ st with audioStreamIdx := -1 } : OpenState) = st := by
      cases st
      simp only at hidx
      simp [hidx]
    cases pa <;> cases co <;> cases fa <;> cases ba <;> cases cv <;> cases ci <;>
      simp_all [process_stream, hidx]

/-- Witness for `stream_setup_failure_rolls_back_only_stream`: a video
stream failing at codec open, processed after the audio stream is already
set up, leaves the whole state unchanged. -/
theorem stream_setup_failure_rolls_back_only_stream_witness :
    (stAudioDone.videoStreamIdx = -1 ∧ videoOpenFailDesc.codecOpenOk = false) ∧
    process_stream stAudioDone 1 videoOpenFailDesc = Except.ok stAudioDone :=
  ⟨⟨rfl, rfl⟩,
    (stream_setup_failure_rolls_back_only_stream stAudioDone 1 videoOpenFailDesc).1
      rfl rfl rfl rfl (Or.inr (Or.inl rfl))⟩

theorem enqueue_all_ids (ts : List PTask) :
    ∀ (l : List PTask) (e : Bool) (n : Int),
      (enqueue_all ⟨l, e, n⟩ ts).1 =
        (List.range ts.length).map (fun i : Nat => n + (i : Int)) := by
  induction ts with
  | nil => intro l e n; simp [enqueue_all]
  | cons t ts ih =>
      intro l e n
      simp only [enqueue_all, task_queue_add]
      rw [ih]
      rw [List.length_cons, List.range_succ_eq_map, List.map_cons, List.map_map]
      congr 1
      · simp
      · apply List.map_congr_left
        intro i _
        simp only [Function.comp_apply]
        push_cast
        ring

/-- C8: enqueueing assigns the request identifier from the monotone
counter starting at 1 and hands it straight back: enqueueing any sequence
of tasks on a fresh queue returns the identifiers 1, 2, 3, … in order —
strictly increasing across any two enqueues, hence unique for the
lifetime of the queue. -/
theorem enqueue_ids_monotone_from_one (ts : List PTask) :
    (enqueue_all task_queue_init ts).1 =
      (List.range ts.length).map (fun i : Nat => 1 + (i : Int))
    ∧ (enqueue_all task_queue_init ts).1.Pairwise (· < ·)
    ∧ (enqueue_all task_queue_init ts).1.Nodup := by
  have h : (enqueue_all task_queue_init ts).1 =
      (List.range ts.length).map (fun i : Nat => 1 + (i : Int)) :=
    enqueue_all_ids ts [] false 1
  have hpw : ((List.range ts.length).map (fun i : Nat => 1 + (i : Int))).Pairwise (· < ·) := by
    refine List.Pairwise.map _ ?_ (List.pairwise_lt_range _)
    intro a b hab
    have hab2 : (a : Int) < b := by exact_mod_cast hab
    omega
  refine ⟨h, ?_, ?_⟩
  · rw [h]
    exact hpw
  · rw [h]
    exact List.Pairwise.imp (fun hlt => ne_of_lt hlt) hpw

/-- C9 counterexample: freeing a batch holding one stored video frame
frees that frame and nothing else — in particular the frame-pointer array
itself is not freed. -/
theorem free_batch_array_not_freed :
    ffmpeg_free_frame_range_batch (some wBatch) = [BatchFreeAct.videoFrame 0] ∧
    BatchFreeAct.array ∉ ffmpeg_free_frame_range_batch (some wBatch) :=
  ⟨by decide, by decide⟩

/-- C9 (amended): freeing a batch releases exactly the non-null frame
pointers stored in the first `count` slots of each non-null array (video
and audio); the pointer arrays themselves are caller-allocated and are
never freed, and a null batch is a no-op. -/
theorem free_batch_frees_each_nonnull_frame (b : FrameRangeBatch) (i : Nat) :
    BatchFreeAct.array ∉ ffmpeg_free_frame_range_batch (some b)
    ∧ (BatchFreeAct.videoFrame i ∈ ffmpeg_free_frame_range_batch (some b) ↔
        i < b.count ∧ ∃ f, b.videoFrames = some f ∧ (f i).isSome = true)
    ∧ (BatchFreeAct.audioFrame i ∈ ffmpeg_free_frame_range_batch (some b) ↔
        i < b.count ∧ ∃ f, b.audioFrames = some f ∧ (f i).isSome = true)
    ∧ ffmpeg_free_frame_range_batch none = [] := by
  obtain ⟨vfs, afs, cnt⟩ := b
  refine ⟨?_, ?_, ?_, rfl⟩ <;>
    cases vfs <;> cases afs <;>
      simp [ffmpeg_free_frame_range_batch, List.mem_filterMap, List.mem_range]

/-- C10: the frame release operations accept a null frame pointer as a
no-op (nothing freed, no error), and a frame whose data buffer pointer is
null is released by freeing only the struct, never touching the buffer. -/
theorem free_frame_null_noop :
    (ffmpeg_free_video_frame none = [] ∧ ffmpeg_free_audio_frame none = [])
    ∧ (∀ f : VideoFrameMem, f.dataPtr = none →
        ffmpeg_free_video_frame (some f) = [FreeEv.frameStruct])
    ∧ (∀ f : AudioFrameMem, f.dataPtr = none →
        ffmpeg_free_audio_frame (some f) = [FreeEv.frameStruct]) := by
  refine ⟨⟨rfl, rfl⟩, ?_, ?_⟩
  · intro f h
    simp [ffmpeg_free_video_frame, h]
  · intro f h
    simp [ffmpeg_free_audio_frame, h]

/-- Witness for `free_frame_null_noop` at null frames and frames with null
data buffers. -/
theorem free_frame_null_noop_witness :
    ffmpeg_free_video_frame none = [] ∧ ffmpeg_free_audio_frame none = [] ∧
    ffmpeg_free_video_frame (some ⟨none⟩) = [FreeEv.frameStruct] ∧
    ffmpeg_free_audio_frame (some ⟨none⟩) = [FreeEv.frameStruct] :=
  ⟨free_frame_null_noop.1.1, free_frame_null_noop.1.2,
    free_frame_null_noop.2.1 ⟨none⟩ rfl, free_frame_null_noop.2.2 ⟨none⟩ rfl⟩

end FFStreamer
